import Mathlib

/-!
# Verification of the `rustdss` core dispatcher

A shallow embedding of the command-dispatch engine of the `rustdss`
in-memory key-value store (`src/core/base_logic.rs`), together with
theorems settling the specification's claims about it.

The store (`CoreState.keyval`, a Rust `HashMap<String, RespData>`) is
embedded as an `AList` over `String`: a list of key-value pairs with
no duplicate keys, with `insert` replacing any existing binding and
`lookup` returning an `Option`, exactly the `HashMap` interface the
dispatcher uses.

Rust `i64` arithmetic is embedded over `Int` with explicit two's
complement wrapping (`wrap64`), the release-profile semantics of
`+`/`-` on `i64`.

A Rust panic (the `unwrap()` call on the error branch of `Incr`/`Decr`)
is embedded as `none`: `core_logic` returns `Option (RespData × CoreState)`
and totality (the dispatcher never aborts) is a theorem, not a typing
artifact.
-/

/-- The tagged value type (Rust `RespData`, defined in the transport
layer of the repository, outside the sources in view). Modelled from the
spec: variants `Ok` (success marker), `SimpleStr` (string), `Number`
(`i64` integer), `Error` (message), with structural equality; the
constructor names `SimpleStr`/`Number` follow their uses in
`base_logic.rs`. -/
inductive RespData where
  | Ok : RespData
  | SimpleStr : String → RespData
  | Number : Int → RespData
  | Error : String → RespData
deriving DecidableEq

/-- The helper constructor `RespData::ok()` used by the dispatcher for
the success reply. -/
def RespData.ok : RespData := RespData.Ok

/-- The command type (Rust `Command`, defined outside the sources in
view). Modelled from the spec: the closed set of operations of §3, each
carrying its operands; the `by` amounts of `Incr`/`Decr` are optional
`i64`. -/
inductive Command where
  | Set : String → RespData → Command
  | Get : String → Command
  | FlushAll : Command
  | Incr : String → Option Int → Command
  | Decr : String → Option Int → Command
  | Unknown : Command
deriving DecidableEq

/-- The string-keyed store: a finite map with unique keys, the embedding
of `HashMap<String, RespData>`. -/
abbrev Store := AList (fun _ : String => RespData)

/-- The core state (Rust `CoreState`, a struct holding the `keyval`
hash map, per its uses in `base_logic.rs` and its construction in the
tests there). -/
structure CoreState where
  keyval : Store

/-- Number of entries of the store (Rust `HashMap::len`). -/
def CoreState.size (s : CoreState) : Nat := s.keyval.entries.length

/-- Rust `Result::err`: the error payload of an `Except`, if any. -/
def exceptErr {ε α : Type} : Except ε α → Option ε
  | Except.error e => some e
  | Except.ok _ => none

/-- Two's complement wrapping into the `i64` range: the semantics of
`+`/`-` on Rust `i64` in release profile. -/
def wrap64 (n : Int) : Int := (n + 2 ^ 63) % 2 ^ 64 - 2 ^ 63

/-- The dispatcher `core_logic` of `src/core/base_logic.rs`, embedded
clause by clause. `none` embeds a panic: it can arise only from the
`op.err().unwrap()` call on the error branches of `Incr`/`Decr` (where
`exceptErr` would return `none`). -/
def core_logic (state : CoreState) (cmd : Command) : Option (RespData × CoreState) :=
  match cmd with
  | Command.Set key value =>
      some (RespData.ok, ⟨state.keyval.insert key value⟩)
  | Command.Get key =>
      some ((state.keyval.lookup key).getD (RespData.Error "(nil)"), state)
  | Command.FlushAll =>
      some (RespData.ok, ⟨∅⟩)
  | Command.Incr key maybe_by =>
      let prev := state.keyval.lookup key
      let op : Except RespData RespData :=
        match prev with
        | some (RespData.Number val) =>
            Except.ok (RespData.Number (wrap64 (val + maybe_by.getD 1)))
        | some _ => Except.error (RespData.Error "NaN")
        | none => Except.ok (RespData.Number 1)
      match op with
      | Except.ok new_val => some (new_val, ⟨state.keyval.insert key new_val⟩)
      | Except.error _ => (exceptErr op).map (fun e => (e, state))
  | Command.Decr key maybe_by =>
      let prev := state.keyval.lookup key
      let op : Except RespData RespData :=
        match prev with
        | some (RespData.Number val) =>
            Except.ok (RespData.Number (wrap64 (val - maybe_by.getD 1)))
        | some _ => Except.error (RespData.Error "NaN")
        | none => Except.ok (RespData.Number (-1))
      match op with
      | Except.ok new_val => some (new_val, ⟨state.keyval.insert key new_val⟩)
      | Except.error _ => (exceptErr op).map (fun e => (e, state))
  | Command.Unknown =>
      some (RespData.Error "Unknown core cmd", state)

/-- Modelled from the spec: the Core actor owns the store exclusively and
executes all submitted commands in one total (linearized) order, invoking
the Dispatcher once per command (§4.2, §5); the actor loop itself
(`core::Core`) lives outside the sources in view. `run` is that
serialized execution: the fold of `core_logic` over the linearization,
with `none` propagating a panic. -/
def run (state : CoreState) (cmds : List Command) : Option CoreState :=
  match cmds with
  | [] => some state
  | c :: rest =>
      match core_logic state c with
      | some (_, st2) => run st2 rest
      | none => none

/-- `c` is a command of a caller whose keys are disjoint from `k`: it
neither writes `k` nor clears the store. -/
def avoidsKey (c : Command) (k : String) : Bool :=
  match c with
  | Command.Set k2 _ => k2 != k
  | Command.Get _ => true
  | Command.FlushAll => false
  | Command.Incr k2 _ => k2 != k
  | Command.Decr k2 _ => k2 != k
  | Command.Unknown => true

theorem size_insert_le (s : Store) (k : String) (v : RespData) :
    ((s.insert k v).entries.length : Nat) ≤ s.entries.length + 1 := by
  rw [AList.insert_entries]
  simpa using Nat.succ_le_succ (List.Sublist.length_le (List.kerase_sublist k s.entries))

theorem size_insert_of_mem {s : Store} {k : String} (v : RespData) (h : k ∈ s) :
    (s.insert k v).entries.length = s.entries.length := by
  rw [AList.insert_entries]
  obtain ⟨b, l₁, l₂, -, h2, h3⟩ := List.exists_of_kerase (AList.mem_keys.mp h)
  rw [h3]
  rw [h2]
  simp
  omega

theorem core_logic_set (state : CoreState) (k : String) (v : RespData) :
    core_logic state (Command.Set k v) =
      some (RespData.ok, ⟨state.keyval.insert k v⟩) := rfl

theorem core_logic_get_none {state : CoreState} {k : String}
    (h : state.keyval.lookup k = none) :
    core_logic state (Command.Get k) = some (RespData.Error "(nil)", state) := by
  simp [core_logic, h]

theorem core_logic_get_some {state : CoreState} {k : String} {v : RespData}
    (h : state.keyval.lookup k = some v) :
    core_logic state (Command.Get k) = some (v, state) := by
  simp [core_logic, h]

theorem core_logic_flushall (state : CoreState) :
    core_logic state Command.FlushAll = some (RespData.ok, ⟨∅⟩) := rfl

theorem core_logic_unknown (state : CoreState) :
    core_logic state Command.Unknown =
      some (RespData.Error "Unknown core cmd", state) := rfl

theorem core_logic_incr_none {state : CoreState} {k : String} (amt : Option Int)
    (h : state.keyval.lookup k = none) :
    core_logic state (Command.Incr k amt) =
      some (RespData.Number 1, ⟨state.keyval.insert k (RespData.Number 1)⟩) := by
  simp [core_logic, h]

theorem core_logic_incr_num {state : CoreState} {k : String} {n : Int} (amt : Option Int)
    (h : state.keyval.lookup k = some (RespData.Number n)) :
    core_logic state (Command.Incr k amt) =
      some (RespData.Number (wrap64 (n + amt.getD 1)),
        ⟨state.keyval.insert k (RespData.Number (wrap64 (n + amt.getD 1)))⟩) := by
  simp [core_logic, h]

theorem core_logic_incr_nan {state : CoreState} {k : String} {v : RespData} (amt : Option Int)
    (h : state.keyval.lookup k = some v) (hv : ∀ n : Int, v ≠ RespData.Number n) :
    core_logic state (Command.Incr k amt) = some (RespData.Error "NaN", state) := by
  cases v with
  | Number n => exact absurd rfl (hv n)
  | Ok => simp [core_logic, h, exceptErr]
  | SimpleStr s => simp [core_logic, h, exceptErr]
  | Error e => simp [core_logic, h, exceptErr]

theorem core_logic_decr_none {state : CoreState} {k : String} (amt : Option Int)
    (h : state.keyval.lookup k = none) :
    core_logic state (Command.Decr k amt) =
      some (RespData.Number (-1), ⟨state.keyval.insert k (RespData.Number (-1))⟩) := by
  simp [core_logic, h]

theorem core_logic_decr_num {state : CoreState} {k : String} {n : Int} (amt : Option Int)
    (h : state.keyval.lookup k = some (RespData.Number n)) :
    core_logic state (Command.Decr k amt) =
      some (RespData.Number (wrap64 (n - amt.getD 1)),
        ⟨state.keyval.insert k (RespData.Number (wrap64 (n - amt.getD 1)))⟩) := by
  simp [core_logic, h]

theorem core_logic_decr_nan {state : CoreState} {k : String} {v : RespData} (amt : Option Int)
    (h : state.keyval.lookup k = some v) (hv : ∀ n : Int, v ≠ RespData.Number n) :
    core_logic state (Command.Decr k amt) = some (RespData.Error "NaN", state) := by
  cases v with
  | Number n => exact absurd rfl (hv n)
  | Ok => simp [core_logic, h, exceptErr]
  | SimpleStr s => simp [core_logic, h, exceptErr]
  | Error e => simp [core_logic, h, exceptErr]

theorem lookup_preserved {c : Command} {k : String} (hc : avoidsKey c k = true)
    (state : CoreState) :
    ∃ r st2, core_logic state c = some (r, st2) ∧
      st2.keyval.lookup k = state.keyval.lookup k := by
  cases c with
  | Set k2 v =>
      have hne : k ≠ k2 := Ne.symm (bne_iff_ne.mp (hc : (k2 != k) = true))
      exact ⟨_, _, core_logic_set state k2 v, AList.lookup_insert_ne hne⟩
  | Get k2 =>
      rcases hl : state.keyval.lookup k2 with - | v
      · exact ⟨_, _, core_logic_get_none hl, rfl⟩
      · exact ⟨_, _, core_logic_get_some hl, rfl⟩
  | FlushAll => simp [avoidsKey] at hc
  | Incr k2 amt =>
      have hne : k ≠ k2 := Ne.symm (bne_iff_ne.mp (hc : (k2 != k) = true))
      rcases hl : state.keyval.lookup k2 with - | v
      · exact ⟨_, _, core_logic_incr_none amt hl, AList.lookup_insert_ne hne⟩
      · cases v with
        | Number n => exact ⟨_, _, core_logic_incr_num amt hl, AList.lookup_insert_ne hne⟩
        | Ok => exact ⟨_, _, core_logic_incr_nan amt hl (fun n => by simp), rfl⟩
        | SimpleStr s => exact ⟨_, _, core_logic_incr_nan amt hl (fun n => by simp), rfl⟩
        | Error e => exact ⟨_, _, core_logic_incr_nan amt hl (fun n => by simp), rfl⟩
  | Decr k2 amt =>
      have hne : k ≠ k2 := Ne.symm (bne_iff_ne.mp (hc : (k2 != k) = true))
      rcases hl : state.keyval.lookup k2 with - | v
      · exact ⟨_, _, core_logic_decr_none amt hl, AList.lookup_insert_ne hne⟩
      · cases v with
        | Number n => exact ⟨_, _, core_logic_decr_num amt hl, AList.lookup_insert_ne hne⟩
        | Ok => exact ⟨_, _, core_logic_decr_nan amt hl (fun n => by simp), rfl⟩
        | SimpleStr s => exact ⟨_, _, core_logic_decr_nan amt hl (fun n => by simp), rfl⟩
        | Error e => exact ⟨_, _, core_logic_decr_nan amt hl (fun n => by simp), rfl⟩
  | Unknown => exact ⟨_, _, core_logic_unknown state, rfl⟩

theorem run_preserves_lookup {k : String} {cmds : List Command}
    (h : ∀ c ∈ cmds, avoidsKey c k = true) :
    ∀ state : CoreState, ∃ st2, run state cmds = some st2 ∧
      st2.keyval.lookup k = state.keyval.lookup k := by
  induction cmds with
  | nil => exact fun state => ⟨state, rfl, rfl⟩
  | cons c rest ih =>
      intro state
      obtain ⟨r, st1, hc, hl⟩ := lookup_preserved (h c (by simp)) state
      obtain ⟨st2, hrun, hl2⟩ := ih (fun c2 hc2 => h c2 (by simp [hc2])) st1
      exact ⟨st2, by simp [run, hc, hrun], hl2.trans hl⟩
/-- C1: the dispatcher on `Incr(k, by)` with `delta = by` if given else 1:
if `k` is absent it stores `Number 1` at `k` and returns it regardless of
`delta`; if `k` holds `Number n` it stores and returns
`Number (n + delta)` (i64 addition, embedded as `wrap64`); if `k` holds
any non-integer value it returns `Error "NaN"` and leaves the store
unchanged. -/
theorem incr_spec (state : CoreState) (k : String) (amt : Option Int) :
    (state.keyval.lookup k = none →
      core_logic state (Command.Incr k amt) =
        some (RespData.Number 1, ⟨state.keyval.insert k (RespData.Number 1)⟩)) ∧
    (∀ n : Int, state.keyval.lookup k = some (RespData.Number n) →
      core_logic state (Command.Incr k amt) =
        some (RespData.Number (wrap64 (n + amt.getD 1)),
          ⟨state.keyval.insert k (RespData.Number (wrap64 (n + amt.getD 1)))⟩)) ∧
    (∀ v : RespData, state.keyval.lookup k = some v →
      (∀ n : Int, v ≠ RespData.Number n) →
      core_logic state (Command.Incr k amt) = some (RespData.Error "NaN", state)) :=
  ⟨core_logic_incr_none amt, fun n h => core_logic_incr_num amt h,
   fun v h hv => core_logic_incr_nan amt h hv⟩

theorem incr_spec_wit :
    core_logic ⟨∅⟩ (Command.Incr "a" (some 7)) =
      some (RespData.Number 1, ⟨AList.insert "a" (RespData.Number 1) ∅⟩) ∧
    core_logic ⟨AList.insert "a" (RespData.Number 2) ∅⟩ (Command.Incr "a" (some 10)) =
      some (RespData.Number (wrap64 (2 + 10)),
        ⟨AList.insert "a" (RespData.Number (wrap64 (2 + 10)))
          (AList.insert "a" (RespData.Number 2) ∅)⟩) ∧
    core_logic ⟨AList.insert "a" (RespData.SimpleStr "x") ∅⟩ (Command.Incr "a" none) =
      some (RespData.Error "NaN", ⟨AList.insert "a" (RespData.SimpleStr "x") ∅⟩) :=
  ⟨(incr_spec ⟨∅⟩ "a" (some 7)).1 rfl,
   (incr_spec ⟨AList.insert "a" (RespData.Number 2) ∅⟩ "a" (some 10)).2.1 2 rfl,
   (incr_spec ⟨AList.insert "a" (RespData.SimpleStr "x") ∅⟩ "a" none).2.2
     (RespData.SimpleStr "x") rfl (fun n => by simp)⟩

/-- C2: the dispatcher on `Decr(k, by)` with `delta = by` if given else 1:
if `k` is absent it stores `Number (-1)` at `k` and returns it regardless
of `delta`; if `k` holds `Number n` it stores and returns
`Number (n - delta)` (i64 subtraction, embedded as `wrap64`); if `k`
holds any non-integer value it returns `Error "NaN"` and leaves the store
unchanged. -/
theorem decr_spec (state : CoreState) (k : String) (amt : Option Int) :
    (state.keyval.lookup k = none →
      core_logic state (Command.Decr k amt) =
        some (RespData.Number (-1), ⟨state.keyval.insert k (RespData.Number (-1))⟩)) ∧
    (∀ n : Int, state.keyval.lookup k = some (RespData.Number n) →
      core_logic state (Command.Decr k amt) =
        some (RespData.Number (wrap64 (n - amt.getD 1)),
          ⟨state.keyval.insert k (RespData.Number (wrap64 (n - amt.getD 1)))⟩)) ∧
    (∀ v : RespData, state.keyval.lookup k = some v →
      (∀ n : Int, v ≠ RespData.Number n) →
      core_logic state (Command.Decr k amt) = some (RespData.Error "NaN", state)) :=
  ⟨core_logic_decr_none amt, fun n h => core_logic_decr_num amt h,
   fun v h hv => core_logic_decr_nan amt h hv⟩

theorem decr_spec_wit :
    core_logic ⟨∅⟩ (Command.Decr "a" (some 7)) =
      some (RespData.Number (-1), ⟨AList.insert "a" (RespData.Number (-1)) ∅⟩) ∧
    core_logic ⟨AList.insert "a" (RespData.Number 2) ∅⟩ (Command.Decr "a" (some 10)) =
      some (RespData.Number (wrap64 (2 - 10)),
        ⟨AList.insert "a" (RespData.Number (wrap64 (2 - 10)))
          (AList.insert "a" (RespData.Number 2) ∅)⟩) ∧
    core_logic ⟨AList.insert "a" RespData.Ok ∅⟩ (Command.Decr "a" none) =
      some (RespData.Error "NaN", ⟨AList.insert "a" RespData.Ok ∅⟩) :=
  ⟨(decr_spec ⟨∅⟩ "a" (some 7)).1 rfl,
   (decr_spec ⟨AList.insert "a" (RespData.Number 2) ∅⟩ "a" (some 10)).2.1 2 rfl,
   (decr_spec ⟨AList.insert "a" RespData.Ok ∅⟩ "a" none).2.2
     RespData.Ok rfl (fun n => by simp)⟩

/-- C3: for every store and every command the dispatcher returns normally
with a value (`some`): the `unwrap()` on the error branch never fires and
the embedded i64 arithmetic of `Incr`/`Decr` is total, so no command
raises a fatal fault. -/
theorem core_logic_total (state : CoreState) (cmd : Command) :
    ∃ r st2, core_logic state cmd = some (r, st2) := by
  cases cmd with
  | Set k v => exact ⟨_, _, rfl⟩
  | Get k =>
      rcases hl : state.keyval.lookup k with - | v
      · exact ⟨_, _, core_logic_get_none hl⟩
      · exact ⟨_, _, core_logic_get_some hl⟩
  | FlushAll => exact ⟨_, _, rfl⟩
  | Unknown => exact ⟨_, _, rfl⟩
  | Incr k amt =>
      rcases hl : state.keyval.lookup k with - | v
      · exact ⟨_, _, core_logic_incr_none amt hl⟩
      · cases v with
        | Number n => exact ⟨_, _, core_logic_incr_num amt hl⟩
        | Ok => exact ⟨_, _, core_logic_incr_nan amt hl (fun n => by simp)⟩
        | SimpleStr s => exact ⟨_, _, core_logic_incr_nan amt hl (fun n => by simp)⟩
        | Error e => exact ⟨_, _, core_logic_incr_nan amt hl (fun n => by simp)⟩
  | Decr k amt =>
      rcases hl : state.keyval.lookup k with - | v
      · exact ⟨_, _, core_logic_decr_none amt hl⟩
      · cases v with
        | Number n => exact ⟨_, _, core_logic_decr_num amt hl⟩
        | Ok => exact ⟨_, _, core_logic_decr_nan amt hl (fun n => by simp)⟩
        | SimpleStr s => exact ⟨_, _, core_logic_decr_nan amt hl (fun n => by simp)⟩
        | Error e => exact ⟨_, _, core_logic_decr_nan amt hl (fun n => by simp)⟩
/-- C4: for all keys `k` and values `v`, `Set(k, v)` returns `Ok` and
produces the store with `v` inserted at `k`; `Get(k)` on that store
returns exactly `v`; and the number of entries grows by at most one, by
zero when `k` was already present. -/
theorem set_then_get (state : CoreState) (k : String) (v : RespData) :
    core_logic state (Command.Set k v) =
      some (RespData.ok, ⟨state.keyval.insert k v⟩) ∧
    core_logic ⟨state.keyval.insert k v⟩ (Command.Get k) =
      some (v, ⟨state.keyval.insert k v⟩) ∧
    (⟨state.keyval.insert k v⟩ : CoreState).size ≤ state.size + 1 ∧
    (k ∈ state.keyval → (⟨state.keyval.insert k v⟩ : CoreState).size = state.size) :=
  ⟨rfl, core_logic_get_some (AList.lookup_insert state.keyval),
   size_insert_le state.keyval k v, fun h => size_insert_of_mem v h⟩

theorem set_then_get_wit :
    core_logic ⟨AList.insert "a" RespData.Ok ∅⟩ (Command.Set "a" (RespData.Number 3)) =
      some (RespData.ok, ⟨AList.insert "a" (RespData.Number 3)
        (AList.insert "a" RespData.Ok ∅)⟩) ∧
    core_logic ⟨AList.insert "a" (RespData.Number 3) (AList.insert "a" RespData.Ok ∅)⟩
      (Command.Get "a") =
      some (RespData.Number 3, ⟨AList.insert "a" (RespData.Number 3)
        (AList.insert "a" RespData.Ok ∅)⟩) ∧
    (⟨AList.insert "a" (RespData.Number 3) (AList.insert "a" RespData.Ok ∅)⟩ :
      CoreState).size ≤ (⟨AList.insert "a" RespData.Ok ∅⟩ : CoreState).size + 1 ∧
    (⟨AList.insert "a" (RespData.Number 3) (AList.insert "a" RespData.Ok ∅)⟩ :
      CoreState).size = (⟨AList.insert "a" RespData.Ok ∅⟩ : CoreState).size :=
  have h := set_then_get ⟨AList.insert "a" RespData.Ok ∅⟩ "a" (RespData.Number 3)
  ⟨h.1, h.2.1, h.2.2.1, h.2.2.2 (AList.mem_keys.mpr (by decide))⟩

/-- C5: `Get(k)` never mutates the store: on an absent key it returns
`Error "(nil)"` with the state unchanged (no entry created); on a present
key it returns the stored value with the state unchanged. -/
theorem get_spec (state : CoreState) (k : String) :
    (state.keyval.lookup k = none →
      core_logic state (Command.Get k) = some (RespData.Error "(nil)", state)) ∧
    (∀ v : RespData, state.keyval.lookup k = some v →
      core_logic state (Command.Get k) = some (v, state)) :=
  ⟨core_logic_get_none, fun v h => core_logic_get_some h⟩

theorem get_spec_wit :
    core_logic ⟨∅⟩ (Command.Get "missing") = some (RespData.Error "(nil)", ⟨∅⟩) ∧
    core_logic ⟨AList.insert "a" (RespData.SimpleStr "hello") ∅⟩ (Command.Get "a") =
      some (RespData.SimpleStr "hello", ⟨AList.insert "a" (RespData.SimpleStr "hello") ∅⟩) :=
  ⟨(get_spec ⟨∅⟩ "missing").1 rfl,
   (get_spec ⟨AList.insert "a" (RespData.SimpleStr "hello") ∅⟩ "a").2
     (RespData.SimpleStr "hello") rfl⟩

/-- C6: on every store `FlushAll` returns `Ok` and yields the empty
store, which has zero entries and holds no key. -/
theorem flushall_spec (state : CoreState) :
    core_logic state Command.FlushAll = some (RespData.ok, ⟨∅⟩) ∧
    (⟨∅⟩ : CoreState).size = 0 ∧
    (∀ k : String, AList.lookup k (∅ : Store) = none) :=
  ⟨rfl, rfl, fun k => AList.lookup_empty k⟩

/-- C7: on every store the dispatcher maps the `Unknown` command (the
only command outside `Set`/`Get`/`FlushAll`/`Incr`/`Decr` in the closed
command set) to `Error "Unknown core cmd"` with the store unchanged. -/
theorem unknown_spec (state : CoreState) :
    core_logic state Command.Unknown =
      some (RespData.Error "Unknown core cmd", state) := rfl

/-- C8: under the serialized execution `run` of the Core actor, a
`Set(k, v)` followed by any commands of other callers whose keys are
disjoint from `k` leaves `k` bound to `v`, so the caller's own later
`Get(k)` returns `v`: no lost updates. -/
theorem no_lost_updates (k : String) (v : RespData) (state : CoreState)
    (cmds : List Command) (h : ∀ c ∈ cmds, avoidsKey c k = true) :
    ∃ st2 : CoreState,
      run state (Command.Set k v :: cmds) = some st2 ∧
      st2.keyval.lookup k = some v ∧
      core_logic st2 (Command.Get k) = some (v, st2) := by
  obtain ⟨st2, hrun, hl⟩ := run_preserves_lookup h ⟨state.keyval.insert k v⟩
  have hv : st2.keyval.lookup k = some v := hl.trans (AList.lookup_insert state.keyval)
  exact ⟨st2, hrun, hv, core_logic_get_some hv⟩

theorem no_lost_updates_wit :
    ∃ st2 : CoreState,
      run ⟨∅⟩ [Command.Set "a" (RespData.Number 3), Command.Set "b" RespData.Ok,
        Command.Incr "c" none, Command.Get "a"] = some st2 ∧
      st2.keyval.lookup "a" = some (RespData.Number 3) ∧
      core_logic st2 (Command.Get "a") = some (RespData.Number 3, st2) :=
  no_lost_updates "a" (RespData.Number 3) ⟨∅⟩
    [Command.Set "b" RespData.Ok, Command.Incr "c" none, Command.Get "a"] (by decide)

/-- C9: storing the value `Error "(nil)"` at `k` makes `Get(k)` reply
`Error "(nil)"`, the same reply `Get` gives on an absent key; and `Set`
accepts any value variant, so the `(nil)` reply does not uniquely
indicate absence. -/
theorem nil_reply_ambiguous (state : CoreState) (k : String) :
    core_logic ⟨state.keyval.insert k (RespData.Error "(nil)")⟩ (Command.Get k) =
      some (RespData.Error "(nil)",
        ⟨state.keyval.insert k (RespData.Error "(nil)")⟩) ∧
    (∀ st : CoreState, st.keyval.lookup k = none →
      core_logic st (Command.Get k) = some (RespData.Error "(nil)", st)) ∧
    (∀ v : RespData, core_logic state (Command.Set k v) =
      some (RespData.ok, ⟨state.keyval.insert k v⟩)) :=
  ⟨core_logic_get_some (AList.lookup_insert state.keyval),
   fun st h => core_logic_get_none h, fun v => rfl⟩

theorem nil_reply_ambiguous_wit :
    core_logic ⟨AList.insert "k" (RespData.Error "(nil)") ∅⟩ (Command.Get "k") =
      some (RespData.Error "(nil)", ⟨AList.insert "k" (RespData.Error "(nil)") ∅⟩) ∧
    core_logic ⟨∅⟩ (Command.Get "k") = some (RespData.Error "(nil)", ⟨∅⟩) :=
  ⟨(nil_reply_ambiguous ⟨∅⟩ "k").1,
   (nil_reply_ambiguous ⟨∅⟩ "k").2.1 ⟨∅⟩ rfl⟩

/-- C10: frame property — for any other key `k2 ≠ k`, `Set`, `Incr` and
`Decr` on `k` leave the binding of `k2` (present or absent, and its
value) exactly as it was, and `Get` and `Unknown` leave the whole state
unchanged. -/
theorem frame_spec (state : CoreState) (k k2 : String) (hne : k2 ≠ k) :
    (∀ v r st2, core_logic state (Command.Set k v) = some (r, st2) →
      st2.keyval.lookup k2 = state.keyval.lookup k2) ∧
    (∀ amt r st2, core_logic state (Command.Incr k amt) = some (r, st2) →
      st2.keyval.lookup k2 = state.keyval.lookup k2) ∧
    (∀ amt r st2, core_logic state (Command.Decr k amt) = some (r, st2) →
      st2.keyval.lookup k2 = state.keyval.lookup k2) ∧
    (∀ k3 r st2, core_logic state (Command.Get k3) = some (r, st2) → st2 = state) ∧
    (∀ r st2, core_logic state Command.Unknown = some (r, st2) → st2 = state) := by
  refine ⟨?_, ?_, ?_, ?_, ?_⟩
  · intro v r st2 h
    rw [core_logic_set] at h
    simp only [Option.some.injEq, Prod.mk.injEq] at h
    rw [← h.2]
    exact AList.lookup_insert_ne hne
  · intro amt r st2 h
    rcases hl : state.keyval.lookup k with - | v
    · rw [core_logic_incr_none amt hl] at h
      simp only [Option.some.injEq, Prod.mk.injEq] at h
      rw [← h.2]
      exact AList.lookup_insert_ne hne
    · cases v with
      | Number n =>
          rw [core_logic_incr_num amt hl] at h
          simp only [Option.some.injEq, Prod.mk.injEq] at h
          rw [← h.2]
          exact AList.lookup_insert_ne hne
      | Ok =>
          rw [core_logic_incr_nan amt hl (fun n => by simp)] at h
          simp only [Option.some.injEq, Prod.mk.injEq] at h
          rw [← h.2]
      | SimpleStr s =>
          rw [core_logic_incr_nan amt hl (fun n => by simp)] at h
          simp only [Option.some.injEq, Prod.mk.injEq] at h
          rw [← h.2]
      | Error e =>
          rw [core_logic_incr_nan amt hl (fun n => by simp)] at h
          simp only [Option.some.injEq, Prod.mk.injEq] at h
          rw [← h.2]
  · intro amt r st2 h
    rcases hl : state.keyval.lookup k with - | v
    · rw [core_logic_decr_none amt hl] at h
      simp only [Option.some.injEq, Prod.mk.injEq] at h
      rw [← h.2]
      exact AList.lookup_insert_ne hne
    · cases v with
      | Number n =>
          rw [core_logic_decr_num amt hl] at h
          simp only [Option.some.injEq, Prod.mk.injEq] at h
          rw [← h.2]
          exact AList.lookup_insert_ne hne
      | Ok =>
          rw [core_logic_decr_nan amt hl (fun n => by simp)] at h
          simp only [Option.some.injEq, Prod.mk.injEq] at h
          rw [← h.2]
      | SimpleStr s =>
          rw [core_logic_decr_nan amt hl (fun n => by simp)] at h
          simp only [Option.some.injEq, Prod.mk.injEq] at h
          rw [← h.2]
      | Error e =>
          rw [core_logic_decr_nan amt hl (fun n => by simp)] at h
          simp only [Option.some.injEq, Prod.mk.injEq] at h
          rw [← h.2]
  · intro k3 r st2 h
    rcases hl : state.keyval.lookup k3 with - | v
    · rw [core_logic_get_none hl] at h
      simp only [Option.some.injEq, Prod.mk.injEq] at h
      exact h.2.symm
    · rw [core_logic_get_some hl] at h
      simp only [Option.some.injEq, Prod.mk.injEq] at h
      exact h.2.symm
  · intro r st2 h
    rw [core_logic_unknown] at h
    simp only [Option.some.injEq, Prod.mk.injEq] at h
    exact h.2.symm

theorem frame_spec_wit :
    AList.lookup "b" (AList.insert "a" (RespData.Number 1)
      (AList.insert "b" (RespData.Number 5) (∅ : Store))) =
      AList.lookup "b" (AList.insert "b" (RespData.Number 5) (∅ : Store)) :=
  (frame_spec ⟨AList.insert "b" (RespData.Number 5) ∅⟩ "a" "b" (by decide)).2.1
    none (RespData.Number 1)
    ⟨AList.insert "a" (RespData.Number 1) (AList.insert "b" (RespData.Number 5) ∅)⟩ rfl
